import Mathlib

/-
Verification of the ert job-queue / workspace / storage specification
against the repository sources.

Parts of the repository present under src/ (ert3/workspace/_workspace.py,
src/ert/_c_wrappers/enkf/enkf_fs.py, and the unit tests for the Torque
job-queue driver) are embedded directly from the source.  The Torque
Driver / JobQueueNode / Queue Manager implementation itself is not part
of the provided sources (only its tests are), so those components are
modelled from the specification text (sections 4.2 - 4.4, 6, 7 of the
spec); each such definition carries a doc comment starting with
"Modelled from the spec:".
-/

namespace ErtSpec

/-! ## Workspace model (src/ert3/workspace/_workspace.py)

A filesystem path is a list of components from the root; the empty list
is the root directory.  A filesystem is a predicate telling which paths
exist.  Path.parent of the code is List.dropLast; the root is its own
parent, and the loop of _locate_root checks the marker before testing
for the root, exactly as the while-loop in the source does. -/

/-- The workspace marker directory name, _WORKSPACE_DATA_ROOT in the source. -/
def workspaceDataRoot : String := ".ert"

/-- Embedding of _locate_root: walk from the given path up through its
ancestors; return the first one containing the marker directory, or none
when the root is reached without finding it. -/
def locate_root (fs : List String → Bool) (p : List String) : Option (List String) :=
  if fs (p ++ [workspaceDataRoot]) then some p
  else if h : p = [] then none
  else locate_root fs p.dropLast
termination_by p.length
decreasing_by
  have hpos : 0 < p.length := List.length_pos.mpr h
  simp [List.length_dropLast]
  omega

/-- Embedding of the Workspace constructor: locate the root from the given
path; raise IllegalWorkspaceOperation (modelled as Except.error with the
message from the source) when there is none, otherwise record the root. -/
def workspaceInit (fs : List String → Bool) (p : List String) :
    Except String (List String) :=
  match locate_root fs p with
  | none => .error "Not inside an ERT workspace."
  | some root => .ok root

/-- Embedding of the mkdir call of initialize: the filesystem after the
marker directory has been created directly under the given path. -/
def mkdirMarker (fs : List String → Bool) (p : List String) :
    List String → Bool :=
  fun q => if q = p ++ [workspaceDataRoot] then true else fs q

/-- Embedding of initialize: if any enclosing workspace root is found the
call fails without touching the filesystem; otherwise the marker directory
is created directly under the path and the Workspace constructor is run on
the updated filesystem.  The result carries the updated filesystem and the
root recorded by the constructed Workspace. -/
def initWorkspace (fs : List String → Bool) (p : List String) :
    Except String ((List String → Bool) × List String) :=
  if (locate_root fs p).isSome then
    .error "Already inside an ERT workspace."
  else
    match workspaceInit (mkdirMarker fs p) p with
    | .error e => .error e
    | .ok root => .ok (mkdirMarker fs p, root)

/-! ## EnkfFs model (src/src/ert/_c_wrappers/enkf/enkf_fs.py)

The Python object wraps a C pointer through cwrap.BaseCClass; the state
relevant to umount and free is whether the object is a C reference
(isReference), whether its C pointer is still valid (the truthiness test
"if self:" of BaseCClass), and the native refcount. -/

/-- State of an EnkfFs object: the isReference flag of BaseCClass, the
validity of the C pointer (truthiness of the object), and the refcount
held by the native enkf_fs instance. -/
structure EnkfFsState where
  isRef : Bool
  valid : Bool
  refcount : Nat
deriving DecidableEq, Repr

/-- Embedding of EnkfFs.umount: an AssertionError (modelled as
Except.error with the message from the source) on a reference object, and
on an object whose pointer was already invalidated; otherwise decref and
invalidate the pointer. -/
def umount (s : EnkfFsState) : Except String EnkfFsState :=
  if s.isRef then
    .error "Calling umount() on a reference is an application error"
  else if s.valid then
    .ok { s with valid := false, refcount := s.refcount - 1 }
  else
    .error "Tried to umount for second time - application error"

/-- Embedding of EnkfFs.free: unmount only while the pointer is still
valid, otherwise do nothing. -/
def free (s : EnkfFsState) : Except String EnkfFsState :=
  if s.valid then umount s else .ok s

/-! ## Job queue model (Torque driver, JobQueueNode, Queue Manager)

The implementation of these components is not part of the provided
sources; only the unit tests in
tests/unit_tests/c_wrappers/res/job_queue/test_job_queue_manager_torque.py
are.  The definitions below are therefore modelled from the spec
(sections 4.2 - 4.4, 6 and 7) and from the behaviour those tests pin
down (mock qsub output "10001.s034-lcam", qstat called with "-x" and the
namespace-normalized id, qstat state letter E leading to completion). -/

/-- Modelled from the spec: the per-node queue status enum of section 3,
NOT_SUBMITTED to SUBMITTED to PENDING to RUNNING to a terminal state,
with the manager-only KILLED. -/
inductive QueueStatus where
  | NOT_SUBMITTED
  | SUBMITTED
  | PENDING
  | RUNNING
  | DONE
  | EXIT
  | FAILED_SUBMIT
  | KILLED
deriving DecidableEq, Repr

/-- Modelled from the spec: DONE, EXIT, FAILED_SUBMIT and KILLED are the
terminal states. -/
def QueueStatus.isTerminal : QueueStatus → Bool
  | .DONE => true
  | .EXIT => true
  | .FAILED_SUBMIT => true
  | .KILLED => true
  | _ => false

/-- Modelled from the spec: result of one invocation of the submission
command, as captured by the Command Runner: exit code and the stdout
line holding the backend job identifier. -/
structure CmdResult where
  exitCode : Nat
  out : String
deriving DecidableEq, Repr

/-- Modelled from the spec: result of one invocation of the query
command: exit code, the parsed rows of its tabular stdout (leading
identifier column and the one-letter status code), and whatever was
printed on the error stream (swallowed by the driver, never inspected). -/
structure QstatResult where
  exitCode : Nat
  rows : List (String × Char)
  errLine : String
deriving DecidableEq, Repr

/-- Modelled from the spec: the environment a single polling job runs
against - the behaviour of the n-th query-command invocation, the
sentinel files the wrapper script wrote, the result the done callback
returns, and the opaque caller-supplied callback arguments. -/
structure PollEnv where
  qstat : Nat → QstatResult
  okFile : Bool
  errFile : Bool
  cbSuccess : Bool
  callbackArguments : Nat

/-- Modelled from the spec: the full environment of one job: the
behaviour of the n-th submission-command invocation plus the polling
environment. -/
structure TorqueEnv where
  qsub : Nat → CmdResult
  penv : PollEnv

/-- Modelled from the spec: normalization of a backend job identifier -
the cluster-namespace suffix (everything from the first dot on) is
stripped, so 10001.s034-lcam and 10001 denote the same logical job. -/
def normalizeJobId (s : String) : String :=
  (s.toList.takeWhile (fun c => c ≠ '.')).asString

/-- Modelled from the spec: the argument list of every Torque qstat
invocation - the include-finished-jobs flag -x followed by the
namespace-normalized job identifier. -/
def torqueQstatArgs (jobId : String) : List String :=
  ["-x", normalizeJobId jobId]

/-- Modelled from the spec: the backend job addressed by every Torque
cancel-command invocation - kill, like poll, normalizes the identifier
before addressing the backend, so both identifier forms are accepted. -/
def torqueKillArgs (jobId : String) : List String :=
  [normalizeJobId jobId]

/-- Modelled from the spec: locate the status letter of the row whose
leading identifier column matches the polled job identifier after both
sides are namespace-normalized. -/
def rowLookup (rows : List (String × Char)) (jobId : String) : Option Char :=
  (rows.find? (fun r => normalizeJobId r.1 == normalizeJobId jobId)).map
    (fun r => r.2)

/-- Modelled from the spec and the driver tests: the one-letter codes
treated as backend-terminal; state E in the mocked qstat output leads to
completion of the job in the tests, C and F are completed/finished. -/
def backendTerminal (c : Char) : Bool :=
  c == 'E' || c == 'C' || c == 'F'

/-- Modelled from the spec: the Torque mapping from a non-terminal
one-letter status code to the internal QueueStatus - queued maps to
PENDING, everything else still visible and unfinished counts as
RUNNING. -/
def torqueStatusOfChar (c : Char) : QueueStatus :=
  if c == 'Q' then .PENDING else .RUNNING

/-- Modelled from the spec: terminal resolution of section 4.3.  Once
the backend reports a terminal status the node checks the OK file; when
it exists the done callback is invoked with the caller-supplied
callback arguments and its success indicator is authoritative: success
gives DONE, failure gives EXIT with the exit callback also invoked.
When the OK file is absent (error file present or both absent) the
outcome is EXIT and the exit callback is invoked.  The result is the
final status, the argument the done callback was invoked with (if it
was), and the argument the exit callback was invoked with (if it
was). -/
def resolveTerminal (pe : PollEnv) : QueueStatus × Option Nat × Option Nat :=
  if pe.okFile then
    if pe.cbSuccess then (.DONE, some pe.callbackArguments, none)
    else (.EXIT, some pe.callbackArguments, some pe.callbackArguments)
  else
    (.EXIT, none, some pe.callbackArguments)

/-- Modelled from the spec: the observable outcome of driving one job -
its final status, the argument lists of every recorded query-command
invocation, and the arguments the done/exit callbacks were invoked
with. -/
structure RunResult where
  status : QueueStatus
  qstatArgs : List (List String)
  doneCbArg : Option Nat
  exitCbArg : Option Nat
deriving DecidableEq, Repr

/-- Modelled from the spec: the polling loop of sections 4.2 and 4.4.
Each tick invokes the query command with the include-finished-jobs flag
and the normalized identifier (recording the arguments); a failing query
is transient - the previous known status is retained and the next tick
retries; a successful query either maps the status letter (when
non-terminal) or, on a backend-terminal letter, performs sentinel-aware
terminal resolution.  k is the index of the next query invocation; the
last argument is the remaining number of poll ticks. -/
def pollLoop (pe : PollEnv) (jobId : String) : Nat → QueueStatus → Nat → RunResult
  | _, st, 0 => ⟨st, [], none, none⟩
  | k, st, fuel + 1 =>
    let args := torqueQstatArgs jobId
    let q := pe.qstat k
    if q.exitCode = 0 then
      match rowLookup q.rows jobId with
      | none =>
        let r := pollLoop pe jobId (k + 1) st fuel
        { r with qstatArgs := args :: r.qstatArgs }
      | some c =>
        if backendTerminal c then
          let res := resolveTerminal pe
          ⟨res.1, [args], res.2.1, res.2.2⟩
        else
          let r := pollLoop pe jobId (k + 1) (torqueStatusOfChar c) fuel
          { r with qstatArgs := args :: r.qstatArgs }
    else
      let r := pollLoop pe jobId (k + 1) st fuel
      { r with qstatArgs := args :: r.qstatArgs }

/-- Modelled from the spec: bounded-retry submission.  Attempts are
numbered from i; up to n attempts are made; the first invocation of the
submission command that exits 0 has its stdout parsed as the backend
job identifier; exhausting the budget yields none (FAILED_SUBMIT). -/
def findSubmit (qsub : Nat → CmdResult) : Nat → Nat → Option String
  | _, 0 => none
  | i, n + 1 =>
    if (qsub i).exitCode = 0 then some (qsub i).out
    else findSubmit qsub (i + 1) n

/-- Modelled from the spec: drive one job to its observable outcome -
submit with a bounded retry budget (FAILED_SUBMIT on exhaustion), then
poll the returned identifier from status SUBMITTED for the given number
of ticks. -/
def runJob (env : TorqueEnv) (maxSubmit fuel : Nat) : RunResult :=
  match findSubmit env.qsub 0 maxSubmit with
  | none => ⟨.FAILED_SUBMIT, [], none, none⟩
  | some jid => pollLoop env.penv jid 0 .SUBMITTED fuel

/-! ## Queue Manager model (batch run under a concurrency ceiling) -/

/-- Modelled from the spec: one node of a batch as the manager sees it -
the number of manager ticks it stays non-terminal once submitted, and
the terminal status it resolves to. -/
structure JobTask where
  remaining : Nat
  result : QueueStatus
deriving DecidableEq, Repr

/-- Modelled from the spec: manager state - nodes not yet submitted
(waiting for a concurrency slot), nodes holding a slot (submitted or
running, non-terminal), and the terminal statuses of resolved nodes. -/
structure MState where
  waiting : List JobTask
  active : List JobTask
  finished : List QueueStatus
deriving DecidableEq, Repr

/-- Modelled from the spec: one poll tick of an active node. -/
def tick (j : JobTask) : JobTask :=
  { j with remaining := j.remaining - 1 }

/-- Modelled from the spec: one round of the manager loop - poll every
active node (ticks are independent of each other), move nodes that
reached a terminal state to finished (releasing their slots), then
acquire one slot per waiting node while slots are free and submit up to
that many waiting nodes. -/
def stepMgr (maxC : Nat) (s : MState) : MState :=
  let advanced := s.active.map tick
  let stillActive := advanced.filter (fun j => !(j.remaining == 0))
  let newlyDone := (advanced.filter (fun j => j.remaining == 0)).map
    (fun j => j.result)
  let slots := maxC - stillActive.length
  { waiting := s.waiting.drop slots
    active := stillActive ++ s.waiting.take slots
    finished := s.finished ++ newlyDone }

/-- Modelled from the spec: the initial manager state of a batch - all
nodes waiting, no slot held, nothing finished. -/
def initMgr (jobs : List JobTask) : MState :=
  ⟨jobs, [], []⟩

/-- Modelled from the spec: batch completion - no node waiting and no
node holding a slot. -/
def allDone (s : MState) : Bool :=
  s.waiting.isEmpty && s.active.isEmpty

/-- Modelled from the spec: the manager run loop - step until every node
is terminal, then (and only then) report the batch result; none when
the tick budget is exhausted before completion. -/
def runMgr (maxC : Nat) : Nat → MState → Option (List QueueStatus)
  | 0, s => if allDone s then some s.finished else none
  | fuel + 1, s =>
    if allDone s then some s.finished
    else runMgr maxC fuel (stepMgr maxC s)

/-! ## Concrete scenarios (mirroring the mocked qsub/qstat of the tests) -/

/-- Filesystem with a workspace marker inside directory a. -/
def fsMarked : List String → Bool :=
  fun q => q == ["a", ".ert"]

/-- Empty filesystem. -/
def fsNone : List String → Bool :=
  fun _ => false

/-- Polling environment of the non-flaky mocked qstat: every invocation
exits 0 and reports the suffixed identifier in state E; the wrapper
wrote the OK file and the done callback succeeds. -/
def peGood : PollEnv :=
  ⟨fun _ => ⟨0, [("10001.s034-lcam", 'E')], ""⟩, true, false, true, 7⟩

/-- Polling environment where the OK file exists but the done callback
returns a failure indicator. -/
def peVeto : PollEnv :=
  ⟨fun _ => ⟨0, [("10001.s034-lcam", 'E')], ""⟩, true, false, false, 7⟩

/-- The non-flaky mocked qsub: every invocation exits 0 and prints the
suffixed identifier. -/
def qsubGood : Nat → CmdResult :=
  fun _ => ⟨0, "10001.s034-lcam"⟩

/-- The mocked qsub printing the identifier without the namespace
suffix. -/
def qsubBare : Nat → CmdResult :=
  fun _ => ⟨0, "10001"⟩

/-- The flaky mocked qsub: the first invocation fails with exit 1, every
later one succeeds with the suffixed identifier. -/
def qsubFlaky : Nat → CmdResult :=
  fun n => if n = 0 then ⟨1, ""⟩ else ⟨0, "10001.s034-lcam"⟩

/-- The flaky mocked qstat: the first invocation exits 1 printing only a
credential error on the error stream, every later invocation behaves
like the non-flaky one. -/
def qstatFlaky : Nat → QstatResult :=
  fun n =>
    if n = 0 then ⟨1, [], "qstat: Invalid credential 10001.s034-lcam"⟩
    else peGood.qstat (n - 1)

/-- Full environment of the non-flaky scenario. -/
def envGood : TorqueEnv :=
  ⟨qsubGood, peGood⟩

/-- Environment where the done callback vetoes success although the OK
file exists. -/
def envVeto : TorqueEnv :=
  ⟨qsubGood, peVeto⟩

/-- A small batch for the manager: one node terminal after one tick with
outcome DONE, one terminal after two ticks with outcome EXIT. -/
def jobsSmall : List JobTask :=
  [⟨1, .DONE⟩, ⟨2, .EXIT⟩]

/-! ## Theorems -/

/-- The ancestor search of _locate_root succeeds exactly when the path
itself or one of its ancestors (a List.take of it) contains the marker
directory. -/
theorem locate_root_isSome_iff (fs : List String → Bool) (p : List String) :
    (locate_root fs p).isSome = true ↔
      ∃ k, fs (p.take k ++ [workspaceDataRoot]) = true := by
  generalize hn : p.length = n
  induction n generalizing p with
  | zero =>
    have hp : p = [] := List.length_eq_zero.mp hn
    subst hp
    rw [locate_root]
    by_cases h1 : fs ([] ++ [workspaceDataRoot]) = true <;>
      simp [h1]
  | succ n ih =>
    rw [locate_root]
    by_cases h1 : fs (p ++ [workspaceDataRoot]) = true
    · simp only [h1, if_true, Option.isSome_some, true_iff]
      exact ⟨p.length, by rw [List.take_length]; exact h1⟩
    · have hp : p ≠ [] := by
        intro hpe
        subst hpe
        simp at hn
      have hlen : p.dropLast.length = n := by
        rw [List.length_dropLast, hn]
        omega
      rw [if_neg h1, dif_neg hp, ih p.dropLast hlen]
      constructor
      · rintro ⟨k, hk⟩
        rw [List.dropLast_eq_take, List.take_take] at hk
        exact ⟨min k (p.length - 1), hk⟩
      · rintro ⟨k, hk⟩
        by_cases hkl : p.length ≤ k
        · rw [List.take_of_length_le hkl] at hk
          exact absurd hk h1
        · refine ⟨k, ?_⟩
          rw [List.dropLast_eq_take, List.take_take]
          have hmin : min k (p.length - 1) = k := by omega
          rw [hmin]
          exact hk

/-- C9: initialize(path) raises IllegalWorkspaceOperation, creating
nothing, when the path or one of its ancestors already contains the
marker directory .ert; otherwise it creates .ert directly under the path
and returns a Workspace whose root resolves to that path, so the
Workspace constructor run on the updated filesystem succeeds with the
same root. -/
theorem initWorkspace_spec (fs : List String → Bool) (p : List String) :
    ((∃ k, fs (p.take k ++ [workspaceDataRoot]) = true) →
      initWorkspace fs p = .error "Already inside an ERT workspace.") ∧
    ((∀ k, fs (p.take k ++ [workspaceDataRoot]) = false) →
      initWorkspace fs p = .ok (mkdirMarker fs p, p) ∧
      workspaceInit (mkdirMarker fs p) p = .ok p ∧
      mkdirMarker fs p (p ++ [workspaceDataRoot]) = true) :=
  by
  constructor
  · intro h
    have hs : (locate_root fs p).isSome = true :=
      (locate_root_isSome_iff fs p).mpr h
    rw [initWorkspace, if_pos hs]
  · intro h
    have hs : ¬(locate_root fs p).isSome = true := by
      rw [locate_root_isSome_iff fs p]
      rintro ⟨k, hk⟩
      rw [h k] at hk
      exact Bool.false_ne_true hk
    have hw : workspaceInit (mkdirMarker fs p) p = .ok p := by
      rw [workspaceInit, locate_root]
      have hm : mkdirMarker fs p (p ++ [workspaceDataRoot]) = true := by
        simp [mkdirMarker]
      rw [if_pos hm]
    refine ⟨?_, hw, by simp [mkdirMarker]⟩
    rw [initWorkspace, if_neg hs, hw]

/-- Closed instance of the C9 theorem: inside directory a (which holds a
marker) initialization fails; on the empty filesystem initializing
directory b creates the marker and the Workspace constructor resolves
the root to b. -/
theorem initWorkspace_spec_witness :
    initWorkspace fsMarked ["a", "b"] =
        .error "Already inside an ERT workspace." ∧
    (initWorkspace fsNone ["b"] = .ok (mkdirMarker fsNone ["b"], ["b"]) ∧
      workspaceInit (mkdirMarker fsNone ["b"]) ["b"] = .ok ["b"] ∧
      mkdirMarker fsNone ["b"] (["b"] ++ [workspaceDataRoot]) = true) :=
  ⟨(initWorkspace_spec fsMarked ["a", "b"]).1 ⟨1, by decide⟩,
    (initWorkspace_spec fsNone ["b"]).2 (fun _ => rfl)⟩

/-- C10: EnkfFs.umount raises an AssertionError on a reference object
and on a second call after the pointer was invalidated; a first valid
call decrements the refcount and invalidates the pointer; EnkfFs.free
is idempotent because it only unmounts while the pointer is still
valid. -/
theorem umount_free_spec (s s2 : EnkfFsState) :
    (s.isRef = true →
      umount s = .error "Calling umount() on a reference is an application error") ∧
    (s.isRef = false → s.valid = true →
      umount s = .ok ⟨false, false, s.refcount - 1⟩ ∧
      umount ⟨false, false, s.refcount - 1⟩ =
        .error "Tried to umount for second time - application error") ∧
    (free s = .ok s2 → free s2 = .ok s2) := by
  refine ⟨?_, ?_, ?_⟩
  · intro h
    rw [umount, if_pos h]
  · intro h hv
    constructor
    · rw [umount, if_neg (by rw [h]; exact Bool.false_ne_true), if_pos hv]
      cases s
      simp_all
    · rw [umount]
      simp
  · intro h
    rw [free] at h
    by_cases hv : s.valid = true
    · rw [if_pos hv, umount] at h
      by_cases hr : s.isRef = true
      · rw [if_pos hr] at h
        exact absurd h (by simp)
      · rw [if_neg hr, if_pos hv] at h
        have h2 : s2 = { s with valid := false, refcount := s.refcount - 1 } := by
          cases h
          rfl
        rw [free, h2]
        simp
    · rw [if_neg hv] at h
      have h2 : s2 = s := by
        cases h
        rfl
      rw [free, h2, if_neg hv]

/-- Closed instance of the C10 theorem: umount on a reference errors, a
first valid umount decrements the refcount and invalidates, a second
umount errors, and free after a successful free is a no-op. -/
theorem umount_free_spec_witness :
    umount ⟨true, true, 3⟩ =
        .error "Calling umount() on a reference is an application error" ∧
    (umount ⟨false, true, 3⟩ = .ok ⟨false, false, 2⟩ ∧
      umount ⟨false, false, 2⟩ =
        .error "Tried to umount for second time - application error") ∧
    free ⟨false, false, 2⟩ = .ok ⟨false, false, 2⟩ :=
  ⟨(umount_free_spec ⟨true, true, 3⟩ ⟨true, true, 3⟩).1 rfl,
    (umount_free_spec ⟨false, true, 3⟩ ⟨false, false, 2⟩).2.1 rfl rfl,
    (umount_free_spec ⟨false, true, 3⟩ ⟨false, false, 2⟩).2.2 rfl⟩

/-- The Torque mapping of a non-terminal status letter never produces a
terminal QueueStatus. -/
theorem torqueStatusOfChar_nonterminal (c : Char) :
    (torqueStatusOfChar c).isTerminal = false := by
  rw [torqueStatusOfChar]
  by_cases h : (c == 'Q') = true <;> simp [h, QueueStatus.isTerminal]

/-- Every query invocation recorded by the polling loop carries exactly
the include-finished-jobs flag followed by the normalized job
identifier. -/
theorem pollLoop_qstatArgs (pe : PollEnv) (jid : String) :
    ∀ fuel k st,
      ((pollLoop pe jid k st fuel).qstatArgs.all
        (fun a => a == torqueQstatArgs jid)) = true := by
  intro fuel
  induction fuel with
  | zero =>
    intro k st
    rfl
  | succ fuel ih =>
    intro k st
    simp only [pollLoop]
    split
    · split
      · simp [List.all_cons, ih]
      · split
        · simp [List.all_cons]
        · simp [List.all_cons, ih]
    · simp [List.all_cons, ih]

/-- C1: for every finished job polled by the Torque driver the query
command is invoked with the include-finished-jobs flag followed by the
namespace-normalized backend job identifier: when submit returned the
identifier 10001.s034-lcam, every recorded qstat invocation has argument
list -x 10001. -/
theorem qstat_always_dash_x (env : TorqueEnv) (m f : Nat)
    (h : findSubmit env.qsub 0 m = some "10001.s034-lcam") :
    ((runJob env m f).qstatArgs.all (fun a => a == ["-x", "10001"])) = true := by
  simp only [runJob, h]
  have hall := pollLoop_qstatArgs env.penv "10001.s034-lcam" f 0 .SUBMITTED
  have harg : torqueQstatArgs "10001.s034-lcam" = ["-x", "10001"] := by decide
  rw [harg] at hall
  exact hall

/-- Closed instance of the C1 theorem on the mocked-qsub scenario of the
tests. -/
theorem qstat_always_dash_x_witness :
    ((runJob envGood 1 1).qstatArgs.all (fun a => a == ["-x", "10001"])) = true :=
  qstat_always_dash_x envGood 1 1 (by decide)

/-- When the polling loop, started from a non-terminal status, ends in
DONE or EXIT, that outcome and the callback invocations are exactly the
ones produced by sentinel-aware terminal resolution. -/
theorem pollLoop_resolved (pe : PollEnv) (jid : String) :
    ∀ fuel k st, st.isTerminal = false →
      ((pollLoop pe jid k st fuel).status = .DONE ∨
        (pollLoop pe jid k st fuel).status = .EXIT) →
      (pollLoop pe jid k st fuel).status = (resolveTerminal pe).1 ∧
      (pollLoop pe jid k st fuel).doneCbArg = (resolveTerminal pe).2.1 ∧
      (pollLoop pe jid k st fuel).exitCbArg = (resolveTerminal pe).2.2 := by
  intro fuel
  induction fuel with
  | zero =>
    intro k st hst hres
    exfalso
    have hs : (pollLoop pe jid k st 0).status = st := rfl
    rw [hs] at hres
    rcases hres with h | h <;>
      (rw [h] at hst; simp [QueueStatus.isTerminal] at hst)
  | succ fuel ih =>
    intro k st hst hres
    simp only [pollLoop] at hres ⊢
    by_cases hq : (pe.qstat k).exitCode = 0
    · rw [if_pos hq] at hres ⊢
      rcases hrow : rowLookup (pe.qstat k).rows jid with _ | c
      · simp only [hrow] at hres ⊢
        exact ih (k + 1) st hst hres
      · simp only [hrow] at hres ⊢
        by_cases hterm : backendTerminal c = true
        · rw [if_pos hterm]
          exact ⟨rfl, rfl, rfl⟩
        · rw [if_neg hterm] at hres ⊢
          exact ih (k + 1) (torqueStatusOfChar c)
            (torqueStatusOfChar_nonterminal c) hres
    · rw [if_neg hq] at hres ⊢
      exact ih (k + 1) st hst hres

/-- C2: for every job whose wrapper ran to completion (the run resolved
to a terminal DONE/EXIT outcome), whose OK sentinel file was written and
whose done callback returned success, the final status is DONE and the
done callback was invoked with the caller-supplied callback
arguments. -/
theorem done_on_ok_and_cb_success (env : TorqueEnv) (m f : Nat)
    (hok : env.penv.okFile = true) (hcb : env.penv.cbSuccess = true)
    (hres : (runJob env m f).status = .DONE ∨ (runJob env m f).status = .EXIT) :
    (runJob env m f).status = .DONE ∧
    (runJob env m f).doneCbArg = some env.penv.callbackArguments := by
  rcases hsub : findSubmit env.qsub 0 m with _ | jid
  · simp only [runJob, hsub] at hres
    exact absurd hres (by simp)
  · simp only [runJob, hsub] at hres ⊢
    obtain ⟨h1, h2, _⟩ :=
      pollLoop_resolved env.penv jid f 0 .SUBMITTED rfl hres
    refine ⟨?_, ?_⟩
    · rw [h1, resolveTerminal, if_pos hok, if_pos hcb]
    · rw [h2, resolveTerminal, if_pos hok, if_pos hcb]

/-- Closed instance of the C2 theorem on the non-flaky mocked
scenario. -/
theorem done_on_ok_and_cb_success_witness :
    (runJob envGood 1 1).status = .DONE ∧
    (runJob envGood 1 1).doneCbArg = some envGood.penv.callbackArguments :=
  done_on_ok_and_cb_success envGood 1 1 rfl rfl (Or.inl (by decide))

/-- C8: for every job whose backend reported a terminal status (the run
resolved to DONE/EXIT) and whose OK file exists, a done callback that
returns a failure indicator forces the outcome EXIT - the exit callback
is invoked with the callback arguments, the done callback was consulted,
and the outcome is not DONE despite the OK file. -/
theorem exit_on_cb_veto (env : TorqueEnv) (m f : Nat)
    (hok : env.penv.okFile = true) (hcb : env.penv.cbSuccess = false)
    (hres : (runJob env m f).status = .DONE ∨ (runJob env m f).status = .EXIT) :
    (runJob env m f).status = .EXIT ∧
    (runJob env m f).exitCbArg = some env.penv.callbackArguments ∧
    (runJob env m f).doneCbArg = some env.penv.callbackArguments ∧
    (runJob env m f).status ≠ .DONE := by
  rcases hsub : findSubmit env.qsub 0 m with _ | jid
  · simp only [runJob, hsub] at hres
    exact absurd hres (by simp)
  · simp only [runJob, hsub] at hres ⊢
    obtain ⟨h1, h2, h3⟩ :=
      pollLoop_resolved env.penv jid f 0 .SUBMITTED rfl hres
    have hncb : ¬env.penv.cbSuccess = true := by
      rw [hcb]
      exact Bool.false_ne_true
    refine ⟨?_, ?_, ?_, ?_⟩
    · rw [h1, resolveTerminal, if_pos hok, if_neg hncb]
    · rw [h3, resolveTerminal, if_pos hok, if_neg hncb]
    · rw [h2, resolveTerminal, if_pos hok, if_neg hncb]
    · rw [h1, resolveTerminal, if_pos hok, if_neg hncb]
      simp

/-- Closed instance of the C8 theorem: the OK file exists but the
callback vetoes, so the job exits with the exit callback invoked. -/
theorem exit_on_cb_veto_witness :
    (runJob envVeto 1 1).status = .EXIT ∧
    (runJob envVeto 1 1).exitCbArg = some envVeto.penv.callbackArguments ∧
    (runJob envVeto 1 1).doneCbArg = some envVeto.penv.callbackArguments ∧
    (runJob envVeto 1 1).status ≠ .DONE :=
  exit_on_cb_veto envVeto 1 1 rfl rfl (Or.inr (by decide))

/-- C3: a submission command that fails on its first invocation and
succeeds on retry produces exactly the same observable run (final
status, recorded query invocations, callback invocations) as one that
never fails, provided the retry budget allows a second attempt - the
transient submit failure is retried and never surfaced. -/
theorem flaky_submit_same_outcome (q1 q2 : Nat → CmdResult) (pe : PollEnv)
    (s : String) (m f : Nat)
    (h1 : ∀ i, q1 i = ⟨0, s⟩)
    (h2fail : ¬(q2 0).exitCode = 0)
    (h2 : ∀ i, 1 ≤ i → q2 i = ⟨0, s⟩)
    (hm : 2 ≤ m) :
    runJob ⟨q2, pe⟩ m f = runJob ⟨q1, pe⟩ m f := by
  obtain ⟨m2, rfl⟩ : ∃ m2, m = m2 + 2 := ⟨m - 2, by omega⟩
  have hs1 : findSubmit q1 0 (m2 + 2) = some s := by
    rw [findSubmit, h1 0]
    simp
  have hs2 : findSubmit q2 0 (m2 + 2) = some s := by
    rw [findSubmit, if_neg h2fail, findSubmit, h2 1 (by omega)]
    simp
  simp only [runJob, hs1, hs2]

/-- Closed instance of the C3 theorem: the flaky mocked qsub of the
tests gives the same run as the non-flaky one and that run is DONE. -/
theorem flaky_submit_same_outcome_witness :
    runJob ⟨qsubFlaky, peGood⟩ 2 1 = runJob ⟨qsubGood, peGood⟩ 2 1 ∧
    (runJob ⟨qsubGood, peGood⟩ 2 1).status = .DONE :=
  ⟨flaky_submit_same_outcome qsubGood qsubFlaky peGood "10001.s034-lcam" 2 1
      (fun _ => rfl) (by decide)
      (fun i hi => by
        simp only [qsubFlaky]
        rw [if_neg (show ¬i = 0 by omega)])
      (by omega),
    by decide⟩

/-- Advancing the query-invocation index through a one-step shift of the
query command behaviour leaves the polling loop unchanged: the loop only
consults the query results from its current index on. -/
theorem pollLoop_shift (pe : PollEnv) (q2 : Nat → QstatResult) (jid : String)
    (hshift : ∀ i, q2 (i + 1) = pe.qstat i) :
    ∀ fuel k st,
      pollLoop { pe with qstat := q2 } jid (k + 1) st fuel =
        pollLoop pe jid k st fuel := by
  intro fuel
  induction fuel with
  | zero =>
    intro k st
    rfl
  | succ fuel ih =>
    intro k st
    simp only [pollLoop]
    rw [hshift k]
    by_cases hq : (pe.qstat k).exitCode = 0
    · rw [if_pos hq, if_pos hq]
      rcases hrow : rowLookup (pe.qstat k).rows jid with _ | c
      · simp only [hrow]
        rw [ih (k + 1) st]
      · simp only [hrow]
        by_cases hterm : backendTerminal c = true
        · rw [if_pos hterm, if_pos hterm]
          rfl
        · rw [if_neg hterm, if_neg hterm, ih (k + 1) (torqueStatusOfChar c)]
    · rw [if_neg hq, if_neg hq, ih (k + 1) st]

/-- C4: a query command that fails on its first invocation but succeeds
afterward produces the same outcome as the never-failing query command:
the failed tick records its invocation, retains the previous known
status and retries, so the whole run equals the never-failing run with
one extra recorded query invocation - a single failed query never
demotes the job. -/
theorem flaky_qstat_same_outcome (pe : PollEnv) (q2 : Nat → QstatResult)
    (jid : String) (st : QueueStatus) (fuel : Nat)
    (hfail : ¬(q2 0).exitCode = 0)
    (hshift : ∀ i, q2 (i + 1) = pe.qstat i) :
    pollLoop { pe with qstat := q2 } jid 0 st (fuel + 1) =
      { pollLoop pe jid 0 st fuel with
        qstatArgs := torqueQstatArgs jid ::
          (pollLoop pe jid 0 st fuel).qstatArgs } := by
  simp only [pollLoop]
  rw [if_neg hfail, pollLoop_shift pe q2 jid hshift fuel 0 st]

/-- Closed instance of the C4 theorem on the flaky mocked qstat of the
tests. -/
theorem flaky_qstat_same_outcome_witness :
    pollLoop { peGood with qstat := qstatFlaky } "10001.s034-lcam" 0
        .SUBMITTED 2 =
      { pollLoop peGood "10001.s034-lcam" 0 .SUBMITTED 1 with
        qstatArgs := torqueQstatArgs "10001.s034-lcam" ::
          (pollLoop peGood "10001.s034-lcam" 0 .SUBMITTED 1).qstatArgs } :=
  flaky_qstat_same_outcome peGood qstatFlaky "10001.s034-lcam" .SUBMITTED 1
    (by decide) (fun _ => rfl)

/-- A list every element of which satisfies the predicate is its own
takeWhile. -/
theorem takeWhile_all_eq {α : Type} (p : α → Bool) (l : List α)
    (h : l.all p = true) : l.takeWhile p = l := by
  induction l with
  | nil => rfl
  | cons a t ih =>
    rw [List.all_cons, Bool.and_eq_true] at h
    rw [List.takeWhile_cons, if_pos h.1, ih h.2]

/-- takeWhile over an accepted block followed by a rejected element cuts
exactly at that element. -/
theorem takeWhile_append_stop {α : Type} (p : α → Bool) (l1 l2 : List α)
    (x : α) (h1 : l1.all p = true) (hx : p x = false) :
    (l1 ++ x :: l2).takeWhile p = l1 := by
  induction l1 with
  | nil =>
    rw [List.nil_append, List.takeWhile_cons, if_neg (by rw [hx]; decide)]
  | cons a t ih =>
    rw [List.all_cons, Bool.and_eq_true] at h1
    rw [List.cons_append, List.takeWhile_cons, if_pos h1.1, ih h1.2]

/-- An identifier without a namespace suffix (no dot in it) is left
unchanged by normalization. -/
theorem normalizeJobId_noSuffix (b : String)
    (hb : (b.toList.all (fun c => c ≠ '.')) = true) :
    normalizeJobId b = b := by
  rw [normalizeJobId, takeWhile_all_eq _ _ hb, String.asString_toList]

/-- Attaching a dotted cluster-namespace suffix to a dot-free identifier
normalizes back to the bare identifier. -/
theorem normalizeJobId_suffix (b sfx : String)
    (hb : (b.toList.all (fun c => c ≠ '.')) = true) :
    normalizeJobId (b ++ "." ++ sfx) = b := by
  rw [normalizeJobId]
  have hdata : (b ++ "." ++ sfx).toList = b.toList ++ '.' :: sfx.toList := by
    simp [String.toList, String.data_append]
  rw [hdata, takeWhile_append_stop _ _ _ _ hb (by decide),
    String.asString_toList]

/-- Any row whose identifier column normalizes like the polled
identifier is matched by the row lookup. -/
theorem rowLookup_single (rid jid : String) (c : Char)
    (hn : normalizeJobId rid = normalizeJobId jid) :
    rowLookup [(rid, c)] jid = some c := by
  rw [rowLookup]
  simp [List.find?, hn]

/-- The polling loop depends on the job identifier only through its
normalization: two identifiers that normalize identically produce
identical runs (same recorded invocations, status and callbacks). -/
theorem pollLoop_normalize_congr (pe : PollEnv) (jid1 jid2 : String)
    (hn : normalizeJobId jid1 = normalizeJobId jid2) :
    ∀ fuel k st, pollLoop pe jid1 k st fuel = pollLoop pe jid2 k st fuel := by
  have hargs : torqueQstatArgs jid1 = torqueQstatArgs jid2 := by
    rw [torqueQstatArgs, torqueQstatArgs, hn]
  intro fuel
  induction fuel with
  | zero =>
    intro k st
    rfl
  | succ fuel ih =>
    intro k st
    simp only [pollLoop]
    have hrl : rowLookup (pe.qstat k).rows jid1 =
        rowLookup (pe.qstat k).rows jid2 := by
      rw [rowLookup, rowLookup, hn]
    rw [hargs, hrl]
    by_cases hq : (pe.qstat k).exitCode = 0
    · rw [if_pos hq, if_pos hq]
      rcases hrow : rowLookup (pe.qstat k).rows jid2 with _ | c
      · simp only [hrow]
        rw [ih (k + 1) st]
      · simp only [hrow]
        by_cases hterm : backendTerminal c = true
        · rw [if_pos hterm, if_pos hterm]
        · rw [if_neg hterm, if_neg hterm, ih (k + 1) (torqueStatusOfChar c)]
    · rw [if_neg hq, if_neg hq, ih (k + 1) st]

/-- C5: for every dot-free base identifier and every cluster-namespace
suffix, the suffixed and bare identifier forms normalize identically;
kill addresses the same backend job in both forms; poll matches the row
of the job whichever form either side uses, because the driver
normalizes before matching; the polling loop behaves identically on both
forms; and a job whose submit returned one form runs to exactly the same
outcome as one whose submit returned the other. -/
theorem jobid_namespace_normalized (b sfx : String) (c : Char)
    (pe : PollEnv) (q1 q2 : Nat → CmdResult) (m f fuel k : Nat)
    (st : QueueStatus)
    (hb : (b.toList.all (fun ch => ch ≠ '.')) = true)
    (hs1 : findSubmit q1 0 m = some (b ++ "." ++ sfx))
    (hs2 : findSubmit q2 0 m = some b) :
    normalizeJobId (b ++ "." ++ sfx) = normalizeJobId b ∧
    torqueKillArgs (b ++ "." ++ sfx) = torqueKillArgs b ∧
    rowLookup [(b ++ "." ++ sfx, c)] b = some c ∧
    rowLookup [(b, c)] (b ++ "." ++ sfx) = some c ∧
    pollLoop pe (b ++ "." ++ sfx) k st fuel = pollLoop pe b k st fuel ∧
    runJob ⟨q1, pe⟩ m f = runJob ⟨q2, pe⟩ m f := by
  have hn : normalizeJobId (b ++ "." ++ sfx) = normalizeJobId b := by
    rw [normalizeJobId_suffix b sfx hb, normalizeJobId_noSuffix b hb]
  refine ⟨hn, ?_, ?_, ?_, ?_, ?_⟩
  · rw [torqueKillArgs, torqueKillArgs, hn]
  · exact rowLookup_single _ _ c hn
  · exact rowLookup_single _ _ c hn.symm
  · exact pollLoop_normalize_congr pe _ _ hn fuel k st
  · simp only [runJob, hs1, hs2]
    exact pollLoop_normalize_congr pe _ _ hn f 0 .SUBMITTED

/-- Closed instance of the C5 theorem at the identifier pair of the
tests: both forms normalize to 10001, cross-form row matching succeeds,
the polling loop and the whole run agree on both forms, and the shared
outcome is DONE. -/
theorem jobid_namespace_normalized_witness :
    (normalizeJobId ("10001" ++ "." ++ "s034-lcam") = normalizeJobId "10001" ∧
      torqueKillArgs ("10001" ++ "." ++ "s034-lcam") = torqueKillArgs "10001" ∧
      rowLookup [("10001" ++ "." ++ "s034-lcam", 'E')] "10001" = some 'E' ∧
      rowLookup [("10001", 'E')] ("10001" ++ "." ++ "s034-lcam") = some 'E' ∧
      pollLoop peGood ("10001" ++ "." ++ "s034-lcam") 0 .SUBMITTED 1 =
        pollLoop peGood "10001" 0 .SUBMITTED 1 ∧
      runJob ⟨qsubGood, peGood⟩ 1 1 = runJob ⟨qsubBare, peGood⟩ 1 1) ∧
    (runJob ⟨qsubBare, peGood⟩ 1 1).status = .DONE :=
  ⟨jobid_namespace_normalized "10001" "s034-lcam" 'E' peGood qsubGood
      qsubBare 1 1 1 0 .SUBMITTED (by decide) (by decide) (by decide),
    by decide⟩

/-- One manager round keeps the number of slot-holding (submitted or
running, non-terminal) nodes within the concurrency ceiling: slots are
released when nodes reach a terminal state and newly submitted nodes
only fill the slots that are free. -/
theorem stepMgr_active_le (maxC : Nat) (s : MState)
    (h : s.active.length ≤ maxC) :
    (stepMgr maxC s).active.length ≤ maxC := by
  simp only [stepMgr]
  simp only [List.length_append, List.length_take]
  have h1 : ((s.active.map tick).filter (fun j => !(j.remaining == 0))).length
      ≤ s.active.length := by
    calc ((s.active.map tick).filter (fun j => !(j.remaining == 0))).length
        ≤ (s.active.map tick).length := List.length_filter_le _ _
      _ = s.active.length := List.length_map s.active tick
  omega

/-- C6: at no point of a batch run does the number of simultaneously
non-terminal, submitted-or-running nodes exceed the configured
concurrency ceiling, for any batch submitted in one call: after any
number of manager rounds starting from the initial state the slot-holding
node count is at most the ceiling. -/
theorem concurrency_never_exceeded (jobs : List JobTask) (maxC k : Nat) :
    ((stepMgr maxC)^[k] (initMgr jobs)).active.length ≤ maxC := by
  induction k with
  | zero => simp [initMgr]
  | succ k ih =>
    rw [Function.iterate_succ_apply']
    exact stepMgr_active_le maxC _ ih

/-- Splitting a list by a predicate and its pointwise negation preserves
the total length. -/
theorem length_filter_split {α : Type} (p q : α → Bool)
    (hpq : ∀ a, q a = !(p a)) (l : List α) :
    (l.filter p).length + (l.filter q).length = l.length := by
  induction l with
  | nil => rfl
  | cons a t ih =>
    rw [List.filter_cons, List.filter_cons, hpq a]
    by_cases h : p a = true
    · rw [if_pos h]
      simp only [h, Bool.not_true, Bool.false_eq_true, if_false,
        List.length_cons]
      omega
    · have hf : p a = false := by
        cases hpa : p a
        · rfl
        · exact absurd hpa h
      rw [if_neg h]
      simp only [hf, Bool.not_false, if_true, List.length_cons]
      omega

/-- One manager round preserves the batch bookkeeping: every tracked
node still carries a terminal designated result, every finished entry is
terminal, and no node is lost or duplicated (the total count of
finished, slot-holding and waiting nodes is unchanged). -/
theorem stepMgr_preserve (maxC : Nat) (s : MState)
    (hterm : ((s.active ++ s.waiting).all
      (fun j => j.result.isTerminal)) = true)
    (hfin : (s.finished.all (fun st => st.isTerminal)) = true) :
    (((stepMgr maxC s).active ++ (stepMgr maxC s).waiting).all
        (fun j => j.result.isTerminal)) = true ∧
    ((stepMgr maxC s).finished.all (fun st => st.isTerminal)) = true ∧
    (stepMgr maxC s).finished.length + (stepMgr maxC s).active.length +
        (stepMgr maxC s).waiting.length =
      s.finished.length + s.active.length + s.waiting.length := by
  rw [List.all_eq_true] at hterm hfin
  have hActive : ∀ j ∈ s.active, j.result.isTerminal = true := by
    intro j hj
    exact hterm j (List.mem_append_left _ hj)
  have hWaiting : ∀ j ∈ s.waiting, j.result.isTerminal = true := by
    intro j hj
    exact hterm j (List.mem_append_right _ hj)
  refine ⟨?_, ?_, ?_⟩
  · rw [List.all_eq_true]
    intro j hj
    rcases List.mem_append.mp hj with hj1 | hj2
    · simp only [stepMgr] at hj1
      rcases List.mem_append.mp hj1 with hj3 | hj4
      · have hj5 := List.mem_of_mem_filter hj3
        obtain ⟨j0, hj0, rfl⟩ := List.mem_map.mp hj5
        exact hActive j0 hj0
      · exact hWaiting j (List.mem_of_mem_take hj4)
    · simp only [stepMgr] at hj2
      exact hWaiting j (List.mem_of_mem_drop hj2)
  · rw [List.all_eq_true]
    intro st hst
    simp only [stepMgr] at hst
    rcases List.mem_append.mp hst with hst1 | hst2
    · exact hfin st hst1
    · obtain ⟨j, hj, rfl⟩ := List.mem_map.mp hst2
      have hj5 := List.mem_of_mem_filter hj
      obtain ⟨j0, hj0, rfl⟩ := List.mem_map.mp hj5
      exact hActive j0 hj0
  · simp only [stepMgr, List.length_append, List.length_take,
      List.length_drop, List.length_map]
    have hsplit := length_filter_split (fun j => j.remaining == 0)
      (fun j => !(j.remaining == 0)) (fun _ => rfl) (s.active.map tick)
    rw [List.length_map] at hsplit
    omega

/-- When the manager loop reports a batch result, every tracked node has
been driven into its terminal state and none is missing: the result
holds one terminal status per node of the state it started from. -/
theorem runMgr_some_terminal (maxC : Nat) :
    ∀ fuel (s : MState) (res : List QueueStatus),
      ((s.active ++ s.waiting).all (fun j => j.result.isTerminal)) = true →
      (s.finished.all (fun st => st.isTerminal)) = true →
      runMgr maxC fuel s = some res →
      res.length =
          s.finished.length + s.active.length + s.waiting.length ∧
      (res.all (fun st => st.isTerminal)) = true := by
  intro fuel
  induction fuel with
  | zero =>
    intro s res hterm hfin hrun
    rw [runMgr] at hrun
    by_cases hd : allDone s = true
    · rw [if_pos hd] at hrun
      cases hrun
      rw [allDone, Bool.and_eq_true, List.isEmpty_iff, List.isEmpty_iff]
        at hd
      rw [hd.1, hd.2]
      simp only [List.length_nil]
      exact ⟨by omega, hfin⟩
    · rw [if_neg hd] at hrun
      exact absurd hrun (by simp)
  | succ fuel ih =>
    intro s res hterm hfin hrun
    rw [runMgr] at hrun
    by_cases hd : allDone s = true
    · rw [if_pos hd] at hrun
      cases hrun
      rw [allDone, Bool.and_eq_true, List.isEmpty_iff, List.isEmpty_iff]
        at hd
      rw [hd.1, hd.2]
      simp only [List.length_nil]
      exact ⟨by omega, hfin⟩
    · rw [if_neg hd] at hrun
      obtain ⟨hp1, hp2, hp3⟩ := stepMgr_preserve maxC s hterm hfin
      obtain ⟨hl, ha⟩ := ih (stepMgr maxC s) res hp1 hp2 hrun
      rw [hp3] at hl
      exact ⟨hl, ha⟩

/-- C7: every submitted node ends in exactly one terminal state and the
manager reports batch completion only once every node is terminal: when
the run loop returns a batch result at all, that result holds exactly
one status per node of the batch and every one of them is terminal. -/
theorem run_reports_only_complete_batches (jobs : List JobTask)
    (maxC fuel : Nat) (res : List QueueStatus)
    (hterm : (jobs.all (fun j => j.result.isTerminal)) = true)
    (hrun : runMgr maxC fuel (initMgr jobs) = some res) :
    res.length = jobs.length ∧ (res.all (fun st => st.isTerminal)) = true := by
  have hterm2 : (((initMgr jobs).active ++ (initMgr jobs).waiting).all
      (fun j => j.result.isTerminal)) = true := by
    simp only [initMgr, List.nil_append]
    exact hterm
  obtain ⟨hl, ha⟩ := runMgr_some_terminal maxC fuel (initMgr jobs) res
    hterm2 rfl hrun
  simp only [initMgr, List.length_nil] at hl
  exact ⟨by omega, ha⟩

/-- Closed instance of the C7 theorem: a two-node batch under ceiling
one completes with exactly two terminal statuses. -/
theorem run_reports_only_complete_batches_witness :
    ([QueueStatus.DONE, QueueStatus.EXIT].length = jobsSmall.length) ∧
    (([QueueStatus.DONE, QueueStatus.EXIT].all
      (fun st => st.isTerminal)) = true) :=
  run_reports_only_complete_batches jobsSmall 1 6
    [QueueStatus.DONE, QueueStatus.EXIT] (by decide) (by decide)

end ErtSpec
